import Mathlib

/-!
Verification of the code-relationship analyzer (`CodeAnalysisService` in
`src/media/main.js`, the TypeScript part of the bundle).

The embedding models a host document as an immutable list of lines plus a
language tag.  The service's JavaScript regular expressions are embedded as
small token-list matchers (`Tok`, `matchToks`) that reproduce the relevant
JS `RegExp` semantics: `\s*` / `\s+`, word boundaries `\b` (JS word chars
are `[A-Za-z0-9_]`; `$` is *not* a word char), character classes, global
`exec` loops that resume at `lastIndex`, and the fact that a `$` appearing
inside an interpolated identifier acts as the end-of-input anchor.
-/

namespace CodeAnalysis

/-- Host editor document as the analyzer consumes it: 0-indexed immutable
lines and a language identifier. -/
structure Doc where
  lines : List String
  languageId : String
deriving DecidableEq

/-- The single selection field the analyzer reads (`selection.start.line`). -/
structure Selection where
  startLine : Int
deriving DecidableEq

/-- Host accessor `document.lineAt(i).text`: throws on an out-of-range index
(the spec's external-interface contract for the document accessor). -/
def lineAt (doc : Doc) (i : Int) : Except String String :=
  if 0 ≤ i ∧ i < (doc.lines.length : Int) then
    .ok (doc.lines.getD i.toNat "")
  else
    .error ("Illegal value for line " ++ toString i)

/-- Text of line `i` for the analyzer's internal loops, all of which only
ever index within `[0, lineCount)`. -/
def lineD (doc : Doc) (i : Nat) : String :=
  doc.lines.getD i ""

/-- Characters written via their code points so that no brace, backtick or
quote appears literally in the file's code. -/
def braceOpenChar : Char := Char.ofNat 123

/-- Closing brace character. -/
def braceCloseChar : Char := Char.ofNat 125

/-- Backtick character (template-literal quote in JS). -/
def backtickChar : Char := Char.ofNat 96

/-- Single-quote character. -/
def singleQuoteChar : Char := Char.ofNat 39

/-- JS `\s` (whitespace) class, restricted to the characters that occur in
document lines. -/
def isJsSpace (c : Char) : Bool := c.isWhitespace

/-- JS `\w` / word character for `\b`: `[A-Za-z0-9_]` — `$` is not a word
character in JS regular expressions. -/
def jsWordChar (c : Char) : Bool := c.isAlphanum || c = '_'

/-- First character of `[a-zA-Z_$][a-zA-Z0-9_$]*`. -/
def identStartChar (c : Char) : Bool := c.isAlpha || c = '_' || c = '$'

/-- Continuation character of `[a-zA-Z_$][a-zA-Z0-9_$]*`. -/
def identInnerChar (c : Char) : Bool := c.isAlphanum || c = '_' || c = '$'

/-- The class `[a-z]`. -/
def lowerStartChar (c : Char) : Bool := 'a' ≤ c && c ≤ 'z'

/-- The class `[A-Z]`. -/
def upperStartChar (c : Char) : Bool := 'A' ≤ c && c ≤ 'Z'

/-- The class `[a-zA-Z0-9_]` (identifier continuation without `$`). -/
def wordInnerChar (c : Char) : Bool := c.isAlphanum || c = '_'

/-- One piece of an embedded regular expression. `eol` is the `$` anchor; it
arises when a `$` inside an interpolated identifier lands in a pattern. -/
inductive Tok where
  | ch (c : Char)
  | eol
  | ws0
  | ws1
  | wb
  | oneOf (cs : List Char)

/-- Match a token sequence at the current position. `prev` is the character
just before the position (for `\b`); on success the final preceding
character and the unconsumed rest are returned.  Greedy matching of
`\s*`/`\s+` is exact here because every continuation in the embedded
patterns starts with a non-space character.  (Structural recursion on the
token list: the whitespace tokens consume their maximal run at once.) -/
def matchToks : List Tok → Option Char → List Char → Option (Option Char × List Char)
  | [], prev, s => some (prev, s)
  | Tok.ch c :: rest, _, x :: r => if x = c then matchToks rest (some x) r else none
  | Tok.ch _ :: _, _, [] => none
  | Tok.eol :: rest, prev, [] => matchToks rest prev []
  | Tok.eol :: _, _, _ :: _ => none
  | Tok.ws0 :: rest, prev, s =>
      matchToks rest ((s.takeWhile isJsSpace).getLast? <|> prev)
        (s.dropWhile isJsSpace)
  | Tok.ws1 :: rest, _, x :: r =>
      if isJsSpace x then
        matchToks rest (some ((r.takeWhile isJsSpace).getLastD x))
          (r.dropWhile isJsSpace)
      else none
  | Tok.ws1 :: _, _, [] => none
  | Tok.wb :: rest, prev, s =>
      let pw := match prev with | some c => jsWordChar c | none => false
      let nw := match s with | c :: _ => jsWordChar c | [] => false
      if pw ≠ nw then matchToks rest prev s else none
  | Tok.oneOf cs :: rest, _, x :: r =>
      if cs.contains x then matchToks rest (some x) r else none
  | Tok.oneOf _ :: _, _, [] => none

/-- Literal keyword fragment of a pattern. -/
def litToks (w : String) : List Tok := w.data.map Tok.ch

/-- An identifier interpolated into a `new RegExp(...)` pattern: every `$`
inside it is the end-of-input anchor, not a literal character. -/
def nameToks (w : String) : List Tok :=
  w.data.map (fun c => if c = '$' then Tok.eol else Tok.ch c)

/-- A matcher consumes input at one position, given the preceding character. -/
def Matcher : Type := Option Char → List Char → Option (List Char)

/-- Matcher for a plain token sequence. -/
def mkMatcher (ts : List Tok) : Matcher := fun prev s =>
  (matchToks ts prev s).map Prod.snd

/-- Unanchored search from position `pos`; returns the end index of the
leftmost match, like `RegExp.exec` on an unanchored pattern. -/
def searchMatcherAux (m : Matcher) : Option Char → List Char → Nat → Option Nat
  | prev, [], pos =>
    match m prev [] with
    | some rest => some (pos + (0 - rest.length))
    | none => none
  | prev, c :: r, pos =>
    match m prev (c :: r) with
    | some rest => some (pos + ((c :: r).length - rest.length))
    | none => searchMatcherAux m (some c) r (pos + 1)

/-- Character just before index `i`. -/
def charBefore (s : List Char) (i : Nat) : Option Char :=
  if i = 0 then none else s.get? (i - 1)

/-- `regex.test(line)` for an unanchored, non-global pattern. -/
def rtestM (m : Matcher) (line : String) : Bool :=
  (searchMatcherAux m none line.data 0).isSome

/-- `regex.test(line)` for an unanchored token pattern. -/
def rtest (ts : List Tok) (line : String) : Bool :=
  rtestM (mkMatcher ts) line

/-- `regex.test(line)` for a `^`-anchored pattern. -/
def rtestA (ts : List Tok) (line : String) : Bool :=
  (matchToks ts none line.data).isSome

/-- `regex.test(line)` for a *global* pattern whose `lastIndex` survives
between calls (the `test` loop in `findFunctionRelationships` reuses one
compiled regex across document lines).  Returns the hit flag and the new
`lastIndex`: the match end on success, `0` on failure. -/
def gTest (m : Matcher) (line : String) (lastIndex : Nat) : Bool × Nat :=
  if lastIndex > line.data.length then (false, 0)
  else
    match searchMatcherAux m (charBefore line.data lastIndex)
        (line.data.drop lastIndex) lastIndex with
    | some e => (true, e)
    | none => (false, 0)

/-- A capturing pattern: ordered prefix alternatives, the capture's character
classes, and the tokens after the capture group. Shorter-than-greedy capture
backtracking never helps for these patterns because no post-context starts
with an identifier character. -/
structure CapPat where
  pre : List (List Tok)
  startP : Char → Bool
  innerP : Char → Bool
  post : List Tok

/-- Attempt the capture group and post-context right after a prefix match. -/
def capAfterPre (p : CapPat) (rest1 : List Char) : Option (String × List Char) :=
  match rest1 with
  | [] => none
  | c :: r =>
    if p.startP c then
      let inner := r.takeWhile p.innerP
      let rest2 := r.dropWhile p.innerP
      match matchToks p.post (some (inner.getLastD c)) rest2 with
      | some (_, rest3) => some (String.mk (c :: inner), rest3)
      | none => none
    else none

/-- Try the prefix alternatives in order (JS ordered alternation with
backtracking into the next alternative when the rest of the pattern fails). -/
def capHereAlts (alts : List (List Tok)) (p : CapPat) (prev : Option Char)
    (s : List Char) : Option (String × List Char) :=
  match alts with
  | [] => none
  | a :: rest =>
    match matchToks a prev s with
    | some (_, rest1) =>
      match capAfterPre p rest1 with
      | some out => some out
      | none => capHereAlts rest p prev s
    | none => capHereAlts rest p prev s

/-- Anchored attempt of a capturing pattern at one position. -/
def capHere (p : CapPat) (prev : Option Char) (s : List Char) :
    Option (String × List Char) :=
  capHereAlts p.pre p prev s

/-- Leftmost match of a position-wise capture function; returns the capture
and the absolute end index. -/
def capSearchFn (f : Option Char → List Char → Option (String × List Char)) :
    Option Char → List Char → Nat → Option (String × Nat)
  | prev, [], pos =>
    match f prev [] with
    | some (name, rest3) => some (name, pos + (0 - rest3.length))
    | none => none
  | prev, c :: r, pos =>
    match f prev (c :: r) with
    | some (name, rest3) => some (name, pos + ((c :: r).length - rest3.length))
    | none => capSearchFn f (some c) r (pos + 1)

/-- First capture of a non-global capturing regex (`String.match` /
single `exec`). -/
def capFirstFn (f : Option Char → List Char → Option (String × List Char))
    (line : String) : Option String :=
  (capSearchFn f none line.data 0).map Prod.fst

/-- First capture of a `CapPat`. -/
def capFirst (p : CapPat) (line : String) : Option String :=
  capFirstFn (capHere p) line

/-- The `while ((match = pattern.exec(text)) !== null)` loop of a global
capturing regex: collect captures left to right, resuming after each match
end.  Every embedded pattern consumes at least one character per match, so
fuel `length + 1` is exact. -/
def execAllCapsAux (p : CapPat) (full : List Char) (lastIndex fuel : Nat) :
    List String :=
  match fuel with
  | 0 => []
  | fuel + 1 =>
    if lastIndex > full.length then []
    else
      match capSearchFn (capHere p) (charBefore full lastIndex)
          (full.drop lastIndex) lastIndex with
      | some (name, e) => name :: execAllCapsAux p full e fuel
      | none => []

/-- All captures of a global capturing regex over one line. -/
def execAllCaps (p : CapPat) (line : String) : List String :=
  execAllCapsAux p line.data 0 (line.data.length + 1)

/-- JS `Set<string>` insertion-order deduplication. -/
def dedup (l : List String) : List String :=
  l.foldl (fun acc x => if acc.contains x then acc else acc ++ [x]) []

/-- JS `String.prototype.includes` (substring containment). -/
def containsStr (line : String) (sub : String) : Bool :=
  line.data.tails.any (fun t => sub.data.isPrefixOf t)

/-- JS `String.prototype.trim` over the character list. -/
def trimChars (s : List Char) : List Char :=
  ((s.dropWhile isJsSpace).reverse.dropWhile isJsSpace).reverse

/-- JS `trim` on a string. -/
def trimStr (s : String) : String := String.mk (trimChars s.data)

/-- JS `String.prototype.startsWith`. -/
def startsWithStr (s w : String) : Bool := w.data.isPrefixOf s.data

/-- Accumulating pass of `split(',')`. -/
def splitCommaAux : List Char → List Char → List (List Char)
  | [], acc => [acc.reverse]
  | c :: r, acc =>
    if c = ',' then acc.reverse :: splitCommaAux r []
    else splitCommaAux r (c :: acc)

/-- JS `split(',')`. -/
def splitComma (s : List Char) : List (List Char) := splitCommaAux s []

/-- JS `Set<number>.add`: append if absent — insertion order preserved,
duplicates never stored. -/
def addLine (s : List Nat) (n : Nat) : List Nat :=
  if n ∈ s then s else s ++ [n]

/-- Insert into an ascending list, keeping it ascending. -/
def insertSorted (a : Nat) : List Nat → List Nat
  | [] => [a]
  | b :: r => if a ≤ b then a :: b :: r else b :: insertSorted a r

/-- `Array.from(set).sort((a, b) => a - b)`: ascending numeric sort. -/
def sortNat : List Nat → List Nat
  | [] => []
  | a :: r => insertSorted a (sortNat r)

/-- Pair each element with its index, starting at `k`. -/
def idxFrom (k : Nat) : List α → List (Nat × α)
  | [] => []
  | x :: xs => (k, x) :: idxFrom (k + 1) xs

/-- Document lines paired with their 0-based indices (the shape of every
`for (let i = 0; i < document.lineCount; i++)` loop). -/
def docLines (doc : Doc) : List (Nat × String) := idxFrom 0 doc.lines

/-- The index list `[a, b)` of a `for (let i = a; i < b; i++)` loop. -/
def idxRange (a b : Nat) : List Nat := (List.range (b - a)).map (a + ·)

/-- Lines `a ≤ i < b` paired with their indices. -/
def linesBetween (doc : Doc) (a b : Nat) : List (Nat × String) :=
  (idxRange a b).map (fun i => (i, lineD doc i))

/-- Fold adding every listed line index. -/
def addAll (l : List Nat) (s : List Nat) : List Nat :=
  l.foldl (fun acc b => addLine acc b) s

/-- Fold adding every listed line whose index/text satisfies the loop's
condition (the shape of each scan-and-`relatedLines.add(i)` loop). -/
def addLinesWhere (p : Nat → String → Bool) (items : List (Nat × String))
    (s : List Nat) : List Nat :=
  items.foldl (fun acc it => if p it.1 it.2 then addLine acc it.1 else acc) s

/-! Target-line extraction patterns of `findVariableRelationships`
(source lines 378-384). -/

/-- `/(?:const|let|var)\s+([a-zA-Z_$][a-zA-Z0-9_$]*)/g` — declarations. -/
def pVarDecl : CapPat :=
  ⟨[litToks "const" ++ [Tok.ws1], litToks "let" ++ [Tok.ws1],
    litToks "var" ++ [Tok.ws1]], identStartChar, identInnerChar, []⟩

/-- `/([a-zA-Z_$][a-zA-Z0-9_$]*)\s*=/g` — assignments. -/
def pAssign : CapPat := ⟨[[]], identStartChar, identInnerChar, [Tok.ws0, Tok.ch '=']⟩

/-- `/([a-zA-Z_$][a-zA-Z0-9_$]*)\s*\(/g` — function calls. -/
def pCall : CapPat := ⟨[[]], identStartChar, identInnerChar, [Tok.ws0, Tok.ch '(']⟩

/-- `/([a-zA-Z_$][a-zA-Z0-9_$]*)\./g` — property access. -/
def pProp : CapPat := ⟨[[]], identStartChar, identInnerChar, [Tok.ch '.']⟩

/-- `/([a-zA-Z_$][a-zA-Z0-9_$]*)\[/g` — array access. -/
def pIndex : CapPat := ⟨[[]], identStartChar, identInnerChar, [Tok.ch '[']⟩

/-- Identifiers gathered from the target line by the five variable
patterns, in pattern order, deduplicated (`Set<string>`). -/
def extractTargetVariables (txt : String) : List String :=
  dedup (execAllCaps pVarDecl txt ++ execAllCaps pAssign txt ++
    execAllCaps pCall txt ++ execAllCaps pProp txt ++ execAllCaps pIndex txt)

/-- Word-boundary occurrence test of one extracted variable, the
interpolated pattern built per line in the variable scan (a fresh regex per
line, so no `lastIndex` state). -/
def wordOccursTest (name : String) (line : String) : Bool :=
  rtest ([Tok.wb] ++ nameToks name ++ [Tok.wb]) line

/-- `findVariableRelationships` (source lines 371-409). -/
def findVariableRelationships (doc : Doc) (targetLine : Nat)
    (targetLineText : String) (relatedLines : List Nat) : List Nat :=
  let vars := extractTargetVariables targetLineText
  addLinesWhere
    (fun i line => i != targetLine && vars.any (fun v => wordOccursTest v line))
    (docLines doc) relatedLines

/-- Deny list of `isBuiltInFunction` (source lines 550-559). -/
def isBuiltInFunction (name : String) : Bool :=
  ["console", "log", "error", "warn", "info",
   "setTimeout", "setInterval", "clearTimeout", "clearInterval",
   "parseInt", "parseFloat", "isNaN", "isFinite",
   "Math", "Date", "Array", "Object", "String", "Number", "Boolean",
   "if", "else", "for", "while", "do", "switch", "case", "break",
   "continue", "return"].contains name

/-- Greedy `.*\)\s*=>` tail: prefer the latest viable `)` (greedy `.*`),
returning the rest after `=>`. -/
def arrowTail : List Char → Option (List Char)
  | [] => none
  | c :: r =>
    match arrowTail r with
    | some rem => some rem
    | none =>
      if c = ')' then
        (matchToks [Tok.ws0, Tok.ch '=', Tok.ch '>'] (some c) r).map Prod.snd
      else none

/-- Matcher for the interpolated `${functionName}\s*\(.*\)\s*=>` shape. -/
def arrowDefMatcher (name : String) : Matcher := fun prev s =>
  match matchToks (nameToks name ++ [Tok.ws0, Tok.ch '(']) prev s with
  | some (_, rest) => arrowTail rest
  | none => none

/-- The five function-definition regexes built for one call name
(source lines 430-436); all are global, so their `lastIndex` persists
across the document-line loop. -/
def functionDefMatchers (name : String) : List Matcher :=
  [ mkMatcher (litToks "function" ++ [Tok.ws1] ++ nameToks name ++
      [Tok.ws0, Tok.ch '(']),
    mkMatcher (litToks "const" ++ [Tok.ws1] ++ nameToks name ++
      [Tok.ws0, Tok.ch '=', Tok.ws0] ++ litToks "function"),
    mkMatcher (litToks "const" ++ [Tok.ws1] ++ nameToks name ++
      [Tok.ws0, Tok.ch '=', Tok.ws0, Tok.ch '(']),
    mkMatcher (nameToks name ++ [Tok.ws0, Tok.ch ':', Tok.ws0] ++
      litToks "function"),
    arrowDefMatcher name ]

/-- Document scan of `findFunctionRelationships` for one function name:
each line skips the target, tests all five stateful patterns, and is added
on any hit (source lines 438-448). -/
def scanFunctionDefs (doc : Doc) (targetLine : Nat) (name : String)
    (relatedLines : List Nat) : List Nat :=
  ((docLines doc).foldl
    (fun (st : List Nat × List (Matcher × Nat)) it =>
      if it.1 == targetLine then st
      else
        let stepped := st.2.map (fun mp => (mp.1, gTest mp.1 it.2 mp.2))
        let hit := stepped.any (fun mp => mp.2.1)
        let next := stepped.map (fun mp => (mp.1, mp.2.2))
        (if hit then addLine st.1 it.1 else st.1, next))
    (relatedLines, (functionDefMatchers name).map (fun m => (m, 0)))).1

/-- `findFunctionRelationships` (source lines 411-450). -/
def findFunctionRelationships (doc : Doc) (targetLine : Nat)
    (targetLineText : String) (relatedLines : List Nat) : List Nat :=
  (execAllCaps pCall targetLineText).foldl
    (fun acc name =>
      if isBuiltInFunction name then acc
      else scanFunctionDefs doc targetLine name acc)
    relatedLines

/-! Control-flow classifiers (source lines 855-877) and sub-strategies. -/

/-- `/^\s*(for|while|do)\s*[\(\{]/`. -/
def isLoopStructure (lineText : String) : Bool :=
  rtestA ([Tok.ws0] ++ litToks "for" ++ [Tok.ws0, Tok.oneOf ['(', braceOpenChar]]) lineText ||
  rtestA ([Tok.ws0] ++ litToks "while" ++ [Tok.ws0, Tok.oneOf ['(', braceOpenChar]]) lineText ||
  rtestA ([Tok.ws0] ++ litToks "do" ++ [Tok.ws0, Tok.oneOf ['(', braceOpenChar]]) lineText

/-- `/^\s*(if|else\s*if|else)\s*[\(\{]/`. -/
def isConditionalStructure (lineText : String) : Bool :=
  rtestA ([Tok.ws0] ++ litToks "if" ++ [Tok.ws0, Tok.oneOf ['(', braceOpenChar]]) lineText ||
  rtestA ([Tok.ws0] ++ litToks "else" ++ [Tok.ws0] ++ litToks "if" ++
    [Tok.ws0, Tok.oneOf ['(', braceOpenChar]]) lineText ||
  rtestA ([Tok.ws0] ++ litToks "else" ++ [Tok.ws0, Tok.oneOf ['(', braceOpenChar]]) lineText

/-- `/^\s*(try|catch|finally)\s*[\(\{]/`. -/
def isTryCatchStructure (lineText : String) : Bool :=
  rtestA ([Tok.ws0] ++ litToks "try" ++ [Tok.ws0, Tok.oneOf ['(', braceOpenChar]]) lineText ||
  rtestA ([Tok.ws0] ++ litToks "catch" ++ [Tok.ws0, Tok.oneOf ['(', braceOpenChar]]) lineText ||
  rtestA ([Tok.ws0] ++ litToks "finally" ++ [Tok.ws0, Tok.oneOf ['(', braceOpenChar]]) lineText

/-- `/^\s*(switch|case|default)\s*[\(\:]/`. -/
def isSwitchStructure (lineText : String) : Bool :=
  rtestA ([Tok.ws0] ++ litToks "switch" ++ [Tok.ws0, Tok.oneOf ['(', ':']]) lineText ||
  rtestA ([Tok.ws0] ++ litToks "case" ++ [Tok.ws0, Tok.oneOf ['(', ':']]) lineText ||
  rtestA ([Tok.ws0] ++ litToks "default" ++ [Tok.ws0, Tok.oneOf ['(', ':']]) lineText

/-- `/^\s*(break|continue)\s*;?/` — the trailing `\s*;?` always matches, so
the test is just the anchored keyword. -/
def isBreakOrContinue (lineText : String) : Bool :=
  rtestA ([Tok.ws0] ++ litToks "break") lineText ||
  rtestA ([Tok.ws0] ++ litToks "continue") lineText

/-- `/^\s*return\b/`. -/
def isReturnStatement (lineText : String) : Bool :=
  rtestA ([Tok.ws0] ++ litToks "return" ++ [Tok.wb]) lineText

/-- `/^\s*(catch|finally)\s*[\(\{]/` used on trimmed lines inside a try
block (source line 925). -/
def catchFinallyTest (lineText : String) : Bool :=
  rtestA ([Tok.ws0] ++ litToks "catch" ++ [Tok.ws0, Tok.oneOf ['(', braceOpenChar]]) lineText ||
  rtestA ([Tok.ws0] ++ litToks "finally" ++ [Tok.ws0, Tok.oneOf ['(', braceOpenChar]]) lineText

/-- `/^\s*else\s*if\s*\(/` (conditional walk, source line 904). -/
def elseIfTest (lineText : String) : Bool :=
  rtestA ([Tok.ws0] ++ litToks "else" ++ [Tok.ws0] ++ litToks "if" ++
    [Tok.ws0, Tok.ch '(']) lineText

/-- `/^\s*else\s*\{?/` — the trailing `\s*\{?` always matches. -/
def elseTest (lineText : String) : Bool :=
  rtestA ([Tok.ws0] ++ litToks "else") lineText

/-- `/^\s*switch\s*\(/`. -/
def switchTest (lineText : String) : Bool :=
  rtestA ([Tok.ws0] ++ litToks "switch" ++ [Tok.ws0, Tok.ch '(']) lineText

/-- `/^\s*(case|default)\s*/` — the trailing `\s*` always matches. -/
def caseDefaultTest (lineText : String) : Bool :=
  rtestA ([Tok.ws0] ++ litToks "case") lineText ||
  rtestA ([Tok.ws0] ++ litToks "default") lineText

/-- `isWhitespaceOrComment` (source lines 984-991). -/
def isWhitespaceOrComment (lineText : String) : Bool :=
  let trimmed := trimStr lineText
  trimmed == "" || startsWithStr trimmed "//" || startsWithStr trimmed "/*" ||
  startsWithStr trimmed "*" || startsWithStr trimmed "#"

/-- Per-line brace counting step; `none` means the depth returned to zero on
this line after having been positive (the close brace was found here). -/
def braceScanChars : List Char → Int → Bool → Option (Int × Bool)
  | [], d, f => some (d, f)
  | c :: cs, d, f =>
    if c = braceOpenChar then braceScanChars cs (d + 1) true
    else if c = braceCloseChar then
      if f ∧ d - 1 = 0 then none else braceScanChars cs (d - 1) f
    else braceScanChars cs d f

/-- Forward brace scan over the lines starting at index `k`; returns the
line index where the depth first returns to zero, if any. -/
def braceScanFrom : List String → Nat → Int → Bool → Option Nat
  | [], _, _, _ => none
  | line :: rest, k, d, f =>
    match braceScanChars line.data d f with
    | some (d1, f1) => braceScanFrom rest (k + 1) d1 f1
    | none => some k

/-- `findControlStructureBoundaries` (source lines 580-606): reads
`lineAt(controlLine)` into the unused `controlText` — the read still throws
on an out-of-range start line — then brace-scans forward.  When no close
brace is found the result stays `[controlLine]`: no close line is pushed. -/
def findControlStructureBoundaries (doc : Doc) (controlLine : Nat) :
    Except String (List Nat) := do
  let _controlText ← lineAt doc (controlLine : Int)
  pure (match braceScanFrom (doc.lines.drop controlLine) controlLine 0 false with
        | some i => [controlLine, i]
        | none => [controlLine])

/-- Boundaries as the finders consume them.  Every finder passes an in-range
line (the target line was validated before any finder runs), so the error
branch is unreachable there; its value coincides with the scan's fallback. -/
def boundariesAt (doc : Doc) (line : Nat) : List Nat :=
  match findControlStructureBoundaries doc line with
  | .ok bs => bs
  | .error _ => [line]

/-- `findLoopRelationships` (source lines 879-892). -/
def findLoopRelationships (doc : Doc) (loopLine : Nat)
    (relatedLines : List Nat) : List Nat :=
  let boundaries := boundariesAt doc loopLine
  let s1 := addAll boundaries relatedLines
  if boundaries.length > 1 then
    addLinesWhere (fun _ line => isBreakOrContinue line)
      (linesBetween doc (loopLine + 1) (boundaries.getLastD 0)) s1
  else s1

/-- Forward walk of `findConditionalRelationships` (source lines 901-910):
add `else if`/`else` continuations, skip blank/comment/close-brace lines,
stop at the first other line. -/
def condWalk : List (Nat × String) → List Nat → List Nat
  | [], s => s
  | (i, line) :: rest, s =>
    let t := trimStr line
    if elseIfTest t || elseTest t then condWalk rest (addLine s i)
    else if t != "" && !startsWithStr t "\x7d" && !isWhitespaceOrComment t then s
    else condWalk rest s

/-- `findConditionalRelationships` (source lines 894-915). -/
def findConditionalRelationships (doc : Doc) (condLine : Nat)
    (relatedLines : List Nat) : List Nat :=
  let s1 := addLine relatedLines condLine
  let s2 := condWalk (linesBetween doc (condLine + 1) doc.lines.length) s1
  addAll (boundariesAt doc condLine) s2

/-- `findTryCatchRelationships` (source lines 917-930): note the boundary
lines themselves are not added, and `catch`/`finally` headers are only
looked for up to the try block's own close brace. -/
def findTryCatchRelationships (doc : Doc) (tryLine : Nat)
    (relatedLines : List Nat) : List Nat :=
  let s1 := addLine relatedLines tryLine
  let boundaries := boundariesAt doc tryLine
  if boundaries.length > 1 then
    addLinesWhere (fun _ line => catchFinallyTest (trimStr line))
      (linesBetween doc (tryLine + 1) (boundaries.getLastD 0 + 1)) s1
  else s1

/-- Nearest line strictly below `n` satisfying `p` (the shape of every
backward `for (let i = n - 1; i >= 0; i--) ... break` loop). -/
def findPrevMatching (doc : Doc) (n : Nat) (p : String → Bool) : Option Nat :=
  ((List.range n).reverse).find? (fun i => p (lineD doc i))

theorem findPrevMatching_lt {doc : Doc} {n i : Nat} {p : String → Bool}
    (h : findPrevMatching doc n p = some i) : i < n := by
  have hmem := List.mem_of_find?_eq_some h
  rw [List.mem_reverse, List.mem_range] at hmem
  exact hmem

/-- `findSwitchRelationships` (source lines 932-956).  The recursive call
from a `case`/`default` line targets the nearest preceding `switch (` line. -/
def findSwitchRelationships (doc : Doc) (switchLine : Nat)
    (relatedLines : List Nat) : List Nat :=
  let lineText := lineD doc switchLine
  if switchTest lineText then
    let boundaries := boundariesAt doc switchLine
    if boundaries.length > 1 then
      addLinesWhere (fun _ line => caseDefaultTest line)
        (linesBetween doc (switchLine + 1) (boundaries.getLastD 0)) relatedLines
    else relatedLines
  else if caseDefaultTest lineText then
    match h : findPrevMatching doc switchLine switchTest with
    | some i => findSwitchRelationships doc i relatedLines
    | none => relatedLines
  else relatedLines
termination_by switchLine
decreasing_by exact findPrevMatching_lt h

/-- `findRelatedLoopStructure` (source lines 958-968). -/
def findRelatedLoopStructure (doc : Doc) (breakLine : Nat)
    (relatedLines : List Nat) : List Nat :=
  match findPrevMatching doc breakLine isLoopStructure with
  | some i => findLoopRelationships doc i (addLine relatedLines i)
  | none => relatedLines

/-! Containing function/class resolution (source lines 650-694). -/

/-- Capture of `/(ID)\s*\(.*\)\s*=>/` at one position (the arrow-function
shape among the function-name patterns). -/
def arrowDefCap (prev : Option Char) (s : List Char) :
    Option (String × List Char) :=
  match s with
  | [] => none
  | c :: r =>
    if identStartChar c then
      let inner := r.takeWhile identInnerChar
      let rest2 := r.dropWhile identInnerChar
      match matchToks [Tok.ws0, Tok.ch '('] (some (inner.getLastD c)) rest2 with
      | some (_, rest3) =>
        (arrowTail rest3).map (fun rem => (String.mk (c :: inner), rem))
      | none => none
    else none

/-- The first four function-name patterns of `findContainingFunction`
(source lines 655-661), in order. -/
def functionNamePats : List CapPat :=
  [ ⟨[litToks "function" ++ [Tok.ws1]], identStartChar, identInnerChar,
      [Tok.ws0, Tok.ch '(']⟩,
    ⟨[litToks "const" ++ [Tok.ws1]], identStartChar, identInnerChar,
      [Tok.ws0, Tok.ch '=', Tok.ws0] ++ litToks "function"⟩,
    ⟨[litToks "const" ++ [Tok.ws1]], identStartChar, identInnerChar,
      [Tok.ws0, Tok.ch '=', Tok.ws0, Tok.ch '(']⟩,
    ⟨[[]], identStartChar, identInnerChar,
      [Tok.ws0, Tok.ch ':', Tok.ws0] ++ litToks "function"⟩ ]

/-- First pattern in the list with a match on this line wins. -/
def firstCap : List CapPat → String → Option String
  | [], _ => none
  | p :: rest, line =>
    match capFirst p line with
    | some n => some n
    | none => firstCap rest line

/-- Function name captured from one line, trying the five patterns in
source order. -/
def matchFunctionName (line : String) : Option String :=
  match firstCap functionNamePats line with
  | some n => some n
  | none => capFirstFn arrowDefCap line

/-- Nearest capture strictly below `n` on a backward scan. -/
def findPrevCap (doc : Doc) (n : Nat) (f : String → Option String) :
    Option String :=
  ((List.range n).reverse).findSome? (fun i => f (lineD doc i))

/-- `findContainingFunction` (source lines 650-672). -/
def findContainingFunction (doc : Doc) (targetLine : Nat) : Option String :=
  findPrevCap doc targetLine matchFunctionName

/-- The class/interface/type name patterns of `findContainingClass`
(source lines 679-683), in order. -/
def classNamePats : List CapPat :=
  [ ⟨[litToks "class" ++ [Tok.ws1]], identStartChar, identInnerChar, []⟩,
    ⟨[litToks "interface" ++ [Tok.ws1]], identStartChar, identInnerChar, []⟩,
    ⟨[litToks "type" ++ [Tok.ws1]], identStartChar, identInnerChar, []⟩ ]

/-- `findContainingClass` (source lines 674-694). -/
def findContainingClass (doc : Doc) (targetLine : Nat) : Option String :=
  findPrevCap doc targetLine (firstCap classNamePats)

/-- `findRelatedFunctionStructure` (source lines 970-982); the line test is
`lineText.includes(functionName) && /function|=>|:/.test(lineText)`. -/
def findRelatedFunctionStructure (doc : Doc) (returnLine : Nat)
    (relatedLines : List Nat) : List Nat :=
  match findContainingFunction doc returnLine with
  | none => relatedLines
  | some functionName =>
    match findPrevMatching doc returnLine
        (fun line => containsStr line functionName &&
          (containsStr line "function" || containsStr line "=>" ||
           containsStr line ":")) with
    | some i => addLine relatedLines i
    | none => relatedLines

/-- `enhancedControlFlowAnalysis` (source lines 826-853): dispatch on the
trimmed target-line text only. -/
def enhancedControlFlowAnalysis (doc : Doc) (targetLine : Nat)
    (relatedLines : List Nat) : List Nat :=
  let targetLineText := trimStr (lineD doc targetLine)
  let s1 :=
    if isLoopStructure targetLineText then
      findLoopRelationships doc targetLine relatedLines
    else if isConditionalStructure targetLineText then
      findConditionalRelationships doc targetLine relatedLines
    else if isTryCatchStructure targetLineText then
      findTryCatchRelationships doc targetLine relatedLines
    else if isSwitchStructure targetLineText then
      findSwitchRelationships doc targetLine relatedLines
    else relatedLines
  let s2 :=
    if isBreakOrContinue targetLineText then
      findRelatedLoopStructure doc targetLine s1
    else s1
  if isReturnStatement targetLineText then
    findRelatedFunctionStructure doc targetLine s2
  else s2

/-! Class-member finder (source lines 698-824). -/

/-- Boundaries record of `findClassBoundaries`; `stop` is named `end` in the
source (`end` is a Lean keyword), with `-1` as the not-found sentinel. -/
structure ClassBoundaries where
  start : Int
  stop : Int
deriving DecidableEq

/-- Interpolated test `class\s+${className}\b` (source line 742). -/
def classDeclTest (className : String) (line : String) : Bool :=
  rtest (litToks "class" ++ [Tok.ws1] ++ nameToks className ++ [Tok.wb]) line

/-- `findClassBoundaries` (source lines 735-774): first matching `class`
declaration line, then a brace scan whose fallback close is the last line. -/
def findClassBoundaries (doc : Doc) (className : String) : ClassBoundaries :=
  match (docLines doc).find? (fun it => classDeclTest className it.2) with
  | none => ⟨-1, -1⟩
  | some it =>
    match braceScanFrom (doc.lines.drop it.1) it.1 0 false with
    | some i => ⟨(it.1 : Int), (i : Int)⟩
    | none => ⟨(it.1 : Int), (doc.lines.length : Int) - 1⟩

/-- `/this\.([a-zA-Z_$][a-zA-Z0-9_$]*)/g`. -/
def pThisMember : CapPat :=
  ⟨[litToks "this" ++ [Tok.ch '.']], identStartChar, identInnerChar, []⟩

/-- `/self\.([a-zA-Z_$][a-zA-Z0-9_$]*)/g`. -/
def pSelfMember : CapPat :=
  ⟨[litToks "self" ++ [Tok.ch '.']], identStartChar, identInnerChar, []⟩

/-- `extractMemberNames` (source lines 776-794). -/
def extractMemberNames (lineText : String) : List String :=
  dedup (execAllCaps pThisMember lineText ++ execAllCaps pSelfMember lineText ++
    execAllCaps pCall lineText)

/-- `lineContainsMember` (source lines 796-806): five interpolated tests. -/
def lineContainsMember (lineText : String) (memberName : String) : Bool :=
  rtest ([Tok.wb] ++ nameToks memberName ++ [Tok.ws0, Tok.ch '(']) lineText ||
  rtest ([Tok.wb] ++ nameToks memberName ++ [Tok.ws0, Tok.ch ':']) lineText ||
  rtest ([Tok.wb] ++ litToks "this" ++ [Tok.ch '.'] ++ nameToks memberName ++
    [Tok.wb]) lineText ||
  rtest ([Tok.wb] ++ litToks "self" ++ [Tok.ch '.'] ++ nameToks memberName ++
    [Tok.wb]) lineText ||
  rtest ([Tok.wb] ++ nameToks memberName ++ [Tok.ws0, Tok.ch '=']) lineText

/-- Constructor-line test of `findConstructor` (source lines 812-816). -/
def constructorLineTest (line : String) : Bool :=
  rtest (litToks "constructor" ++ [Tok.ws0, Tok.ch '(']) line ||
  rtest (litToks "__init__" ++ [Tok.ws0, Tok.ch '(']) line ||
  rtest (litToks "def" ++ [Tok.ws1] ++ litToks "__init__" ++
    [Tok.ws0, Tok.ch '(']) line

/-- `findConstructor` (source lines 808-824); only called with resolved
(non-negative) boundaries. -/
def findConstructor (doc : Doc) (classBoundaries : ClassBoundaries) : Int :=
  match (idxRange classBoundaries.start.toNat (classBoundaries.stop.toNat + 1)).find?
      (fun i => constructorLineTest (lineD doc i)) with
  | some i => (i : Int)
  | none => -1

/-- `findClassMemberRelationships` (source lines 698-733). -/
def findClassMemberRelationships (doc : Doc) (targetLine : Nat)
    (targetLineText : String) (relatedLines : List Nat) : List Nat :=
  match findContainingClass doc targetLine with
  | none => relatedLines
  | some className =>
    let classBoundaries := findClassBoundaries doc className
    if classBoundaries.start == -1 || classBoundaries.stop == -1 then
      relatedLines
    else
      let memberNames := extractMemberNames targetLineText
      let s1 := addLinesWhere
        (fun i line => i != targetLine &&
          memberNames.any (fun m => lineContainsMember line m))
        (linesBetween doc classBoundaries.start.toNat
          (classBoundaries.stop.toNat + 1))
        relatedLines
      let s2 := addLine s1 classBoundaries.start.toNat
      let constructorLine := findConstructor doc classBoundaries
      if constructorLine != -1 then addLine s2 constructorLine.toNat else s2

/-! Import finder (source lines 993-1113). -/

/-- `/([A-Z][a-zA-Z0-9_]*)/g` — PascalCase bare tokens. -/
def pPascal : CapPat := ⟨[[]], upperStartChar, wordInnerChar, []⟩

/-- `/([a-z][a-zA-Z0-9_]*)\s*\(/g`. -/
def pCallLower : CapPat :=
  ⟨[[]], lowerStartChar, wordInnerChar, [Tok.ws0, Tok.ch '(']⟩

/-- `/([a-z][a-zA-Z0-9_]*)\./g`. -/
def pPropLower : CapPat := ⟨[[]], lowerStartChar, wordInnerChar, [Tok.ch '.']⟩

/-- `/([a-z][a-zA-Z0-9_]*)\[/g`. -/
def pIndexLower : CapPat := ⟨[[]], lowerStartChar, wordInnerChar, [Tok.ch '[']⟩

/-- `extractAllIdentifiers` (source lines 1013-1032). -/
def extractAllIdentifiers (lineText : String) : List String :=
  dedup (execAllCaps pPascal lineText ++ execAllCaps pCallLower lineText ++
    execAllCaps pPropLower lineText ++ execAllCaps pIndexLower lineText)

/-- Attempt of the named-import regex at one position: `import`, `\s*`,
an open brace, a non-empty run of non-close-brace characters, the close
brace, `\s*`, `from`.  The `\s*` before/after the capture only shifts
whitespace that the later `split(',').map(trim)` removes anyway, so the
returned names are those of the JS match. -/
def namedHere (s : List Char) : Option (List String) :=
  match matchToks (litToks "import" ++ [Tok.ws0, Tok.ch braceOpenChar]) none s with
  | some (_, rest1) =>
    let between := rest1.takeWhile (· ≠ braceCloseChar)
    let rest2 := rest1.dropWhile (· ≠ braceCloseChar)
    match rest2 with
    | [] => none
    | _ :: rest3 =>
      if between.isEmpty then none
      else
        match matchToks ([Tok.ws0] ++ litToks "from") none rest3 with
        | some _ =>
          some ((splitComma between).map (fun cs => String.mk (trimChars cs)))
        | none => none
  | none => none

/-- Scan for the first named-import match on a line. -/
def namedAux : List Char → Option (List String)
  | [] => namedHere []
  | c :: r =>
    match namedHere (c :: r) with
    | some names => some names
    | none => namedAux r

/-- Names bound by `import { a, b } from ...` on this line, if it matches
(source lines 1049-1053). -/
def namedImportNames (line : String) : Option (List String) :=
  namedAux line.data

/-- `/import\s+([a-zA-Z_$][a-zA-Z0-9_$]*)\s+from/`. -/
def pDefaultImport : CapPat :=
  ⟨[litToks "import" ++ [Tok.ws1]], identStartChar, identInnerChar,
    [Tok.ws1] ++ litToks "from"⟩

/-- `/import\s*\*\s*as\s+([a-zA-Z_$][a-zA-Z0-9_$]*)\s+from/`. -/
def pNamespaceImport : CapPat :=
  ⟨[litToks "import" ++ [Tok.ws0, Tok.ch '*', Tok.ws0] ++ litToks "as" ++
    [Tok.ws1]], identStartChar, identInnerChar, [Tok.ws1] ++ litToks "from"⟩

/-- `/const\s+([a-zA-Z_$][a-zA-Z0-9_$]*)\s*=\s*require\(/`. -/
def pRequireImport : CapPat :=
  ⟨[litToks "const" ++ [Tok.ws1]], identStartChar, identInnerChar,
    [Tok.ws0, Tok.ch '=', Tok.ws0] ++ litToks "require" ++ [Tok.ch '(']⟩

/-- The four import buckets of `categorizeImports`, as insertion-ordered
association lists (a JS `Map`). -/
structure ImportGroups where
  namedImports : List (String × Nat)
  defaultImports : List (String × Nat)
  namespaceImports : List (String × Nat)
  requireImports : List (String × Nat)

/-- `Map.get` after repeated `Map.set`: the last insertion for a key wins. -/
def mapGet (m : List (String × Nat)) (k : String) : Option Nat :=
  m.reverse.findSome? (fun kv => if kv.1 = k then some kv.2 else none)

/-- `categorizeImports` (source lines 1034-1075): one pass over the first
100 lines. -/
def categorizeImports (doc : Doc) : ImportGroups :=
  (idxFrom 0 (doc.lines.take 100)).foldl
    (fun g it =>
      let g1 := match namedImportNames it.2 with
        | some names =>
          { g with namedImports := g.namedImports ++ names.map (fun n => (n, it.1)) }
        | none => g
      let g2 := match capFirst pDefaultImport it.2 with
        | some n => { g1 with defaultImports := g1.defaultImports ++ [(n, it.1)] }
        | none => g1
      let g3 := match capFirst pNamespaceImport it.2 with
        | some n => { g2 with namespaceImports := g2.namespaceImports ++ [(n, it.1)] }
        | none => g2
      match capFirst pRequireImport it.2 with
        | some n => { g3 with requireImports := g3.requireImports ++ [(n, it.1)] }
        | none => g3)
    ⟨[], [], [], []⟩

/-- One `if (map.has(id)) relatedLines.add(map.get(id)!)` step. -/
def addIfFound (o : Option Nat) (s : List Nat) : List Nat :=
  match o with
  | some i => addLine s i
  | none => s

/-- `findImportForIdentifier` (source lines 1077-1098). -/
def findImportForIdentifier (identifier : String) (importGroups : ImportGroups)
    (relatedLines : List Nat) : List Nat :=
  let s1 := addIfFound (mapGet importGroups.namedImports identifier) relatedLines
  let s2 := addIfFound (mapGet importGroups.defaultImports identifier) s1
  let s3 := addIfFound (mapGet importGroups.namespaceImports identifier) s2
  addIfFound (mapGet importGroups.requireImports identifier) s3

/-- Re-export line test `/export\s*\{/.test || /export\s*\*/.test`
(source line 1105). -/
def reExportTest (line : String) : Bool :=
  rtest (litToks "export" ++ [Tok.ws0, Tok.ch braceOpenChar]) line ||
  rtest (litToks "export" ++ [Tok.ws0, Tok.ch '*']) line

/-- `findReExports` (source lines 1100-1113): the whole document is
scanned, and containment is plain substring `includes`. -/
def findReExports (doc : Doc) (identifiers : List String)
    (relatedLines : List Nat) : List Nat :=
  addLinesWhere
    (fun _ line => reExportTest line &&
      identifiers.any (fun ident => containsStr line ident))
    (docLines doc) relatedLines

/-- `enhancedImportAnalysis` (source lines 993-1011). -/
def enhancedImportAnalysis (doc : Doc) (targetLineText : String)
    (relatedLines : List Nat) : List Nat :=
  let identifiers := extractAllIdentifiers targetLineText
  let importGroups := categorizeImports doc
  let s1 := identifiers.foldl
    (fun acc ident => findImportForIdentifier ident importGroups acc)
    relatedLines
  findReExports doc identifiers s1

/-! Context construction (source lines 500-548, 637-648). -/

/-- Anchored test of `/^\s*const\s+.*=\s*require\(/`: after the keyword,
some position must start `=\s*require\(`. -/
def requireScan : List Char → Bool
  | [] => false
  | c :: r =>
    (matchToks ([Tok.ch '=', Tok.ws0] ++ litToks "require" ++ [Tok.ch '('])
      none (c :: r)).isSome || requireScan r

/-- `/^\s*const\s+.*=\s*require\(/.test(lineText)`. -/
def constRequireTest (lineText : String) : Bool :=
  match matchToks ([Tok.ws0] ++ litToks "const" ++ [Tok.ws1]) none lineText.data with
  | some (_, rest) => requireScan rest
  | none => false

/-- `/^\s*from\s+\w+\s+import/.test(lineText)`. -/
def fromImportTest (lineText : String) : Bool :=
  match matchToks ([Tok.ws0] ++ litToks "from" ++ [Tok.ws1]) none lineText.data with
  | some (_, rest) =>
    !(rest.takeWhile wordInnerChar).isEmpty &&
      (matchToks ([Tok.ws1] ++ litToks "import") none
        (rest.dropWhile wordInnerChar)).isSome
  | none => false

/-- `isImportStatement` (source lines 637-648). -/
def isImportStatement (lineText : String) : Bool :=
  rtestA ([Tok.ws0] ++ litToks "import" ++ [Tok.ws1]) lineText ||
  rtestA ([Tok.ws0] ++ litToks "from" ++
    [Tok.ws1, Tok.oneOf [singleQuoteChar, '"', backtickChar]]) lineText ||
  constRequireTest lineText ||
  rtestA ([Tok.ws0, Tok.ch '#'] ++ litToks "include" ++ [Tok.ws0, Tok.ch '<']) lineText ||
  rtestA ([Tok.ws0] ++ litToks "using" ++ [Tok.ws1]) lineText ||
  fromImportTest lineText

/-- Derived context record (source `CodeContext`); `vars` is the source's
`variables` field (`variables` is reserved in Lean). -/
structure CodeContext where
  functionName : Option String
  className : Option String
  vars : List String
  imports : List String
  language : String
deriving DecidableEq

/-- `buildCodeContext` (source lines 500-548): variables from the ±5-line
window (insertion-ordered, deduplicated), imports from the first 50 lines.
The window's upper bound `min(lineCount - 1, targetLine + 5)` is negative
only for an empty document, where the loop body never runs. -/
def buildCodeContext (doc : Doc) (targetLine : Nat) : CodeContext :=
  let functionName := findContainingFunction doc targetLine
  let className := findContainingClass doc targetLine
  let vars :=
    if doc.lines.isEmpty then []
    else
      (idxRange (targetLine - 5)
        (min (doc.lines.length - 1) (targetLine + 5) + 1)).foldl
        (fun acc i =>
          (execAllCaps pVarDecl (lineD doc i)).foldl
            (fun acc2 v => if acc2.contains v then acc2 else acc2 ++ [v]) acc)
        []
  let imports := ((doc.lines.take 50).filter isImportStatement).map trimStr
  { functionName, className, vars, imports, language := doc.languageId }

/-! Composition: `findRelatedLines` and `analyzeCodeSelection`
(source lines 312-369). -/

/-- One finder invocation inside `findRelatedLines`'s try block: the updated
set (a throwing finder keeps the additions it made before throwing) and the
error it threw, if any. -/
def FinderStep : Type := List Nat → List Nat × Option String

/-- The try/catch around the finder sequence: run finders in order and stop
at the first throwing one, keeping the set built so far — the catch only
logs, so later finders are skipped, never resumed. -/
def runFinders : List FinderStep → List Nat → List Nat
  | [], s => s
  | f :: rest, s =>
    match f s with
    | (s1, none) => runFinders rest s1
    | (s1, some _) => s1

/-- The five finder invocations of `findRelatedLines` (source lines
347-361) in call order; the concrete finders are total, so none throws. -/
def mkSteps (doc : Doc) (targetLine : Nat) (targetLineText : String) :
    List FinderStep :=
  [ fun s => (findVariableRelationships doc targetLine targetLineText s, none),
    fun s => (findFunctionRelationships doc targetLine targetLineText s, none),
    fun s => (enhancedControlFlowAnalysis doc targetLine s, none),
    fun s => (enhancedImportAnalysis doc targetLineText s, none),
    fun s => (findClassMemberRelationships doc targetLine targetLineText s, none) ]

/-- `findRelatedLines` parameterized by the finder sequence (the shape used
both for the concrete service and for synthetic-failure analysis): read the
target line (this initial read is *outside* the try block), seed the set
with the target, run the finders under the catch, sort ascending. -/
def findRelatedLinesWith (steps : Doc → Nat → String → List FinderStep)
    (doc : Doc) (targetLine : Int) : Except String (List Nat) := do
  let targetLineText ← lineAt doc targetLine
  let t := targetLine.toNat
  let final := runFinders (steps doc t targetLineText) [t]
  pure (sortNat final)

/-- `findRelatedLines` (source lines 340-369). -/
def findRelatedLines (doc : Doc) (targetLine : Int) :
    Except String (List Nat) :=
  findRelatedLinesWith mkSteps doc targetLine

/-- Result record of `analyzeCodeSelection`. -/
structure CodeAnalysisResult where
  selectedLine : String
  relatedLines : List String
  context : CodeContext
deriving DecidableEq

/-- The typed failure thrown by `analyzeCodeSelection`. -/
structure AnalysisError where
  message : String
  line : Int
deriving DecidableEq

/-- The try-block body of `analyzeCodeSelection` (source lines 316-331):
read the selected line, find related lines, read their texts, build the
context. -/
def analyzeBody (doc : Doc) (selection : Selection) :
    Except String CodeAnalysisResult := do
  let selectedLine ← lineAt doc selection.startLine
  let relatedLineNumbers ← findRelatedLines doc selection.startLine
  let relatedLines ← relatedLineNumbers.mapM (fun lineNum => lineAt doc (lineNum : Int))
  let context := buildCodeContext doc selection.startLine.toNat
  pure { selectedLine, relatedLines, context }

/-- `analyzeCodeSelection` (source lines 312-338): any exception from the
body is wrapped into one `AnalysisError` carrying the original message and
the selection's start line. -/
def analyzeCodeSelection (doc : Doc) (selection : Selection) :
    Except AnalysisError CodeAnalysisResult :=
  match analyzeBody doc selection with
  | .ok result => .ok result
  | .error e =>
    .error ⟨"Failed to analyze code selection: " ++ e, selection.startLine⟩


/-! Sorting facts for `sortNat`. -/

theorem perm_insertSorted (a : Nat) (l : List Nat) :
    List.Perm (insertSorted a l) (a :: l) := by
  induction l with
  | nil => exact List.Perm.refl _
  | cons b r ih =>
    rw [insertSorted]
    split
    · exact List.Perm.refl _
    · exact (ih.cons b).trans (List.Perm.swap a b r)

theorem perm_sortNat (l : List Nat) : List.Perm (sortNat l) l := by
  induction l with
  | nil => exact List.Perm.refl _
  | cons a r ih => exact (perm_insertSorted a (sortNat r)).trans (ih.cons a)

theorem mem_sortNat {a : Nat} {l : List Nat} : a ∈ sortNat l ↔ a ∈ l :=
  (perm_sortNat l).mem_iff

theorem sorted_insertSorted (a : Nat) (l : List Nat)
    (h : l.Sorted (· ≤ ·)) : (insertSorted a l).Sorted (· ≤ ·) := by
  induction l with
  | nil => simp [insertSorted]
  | cons b r ih =>
    rw [List.sorted_cons] at h
    rw [insertSorted]
    split
    · rename_i hab
      rw [List.sorted_cons]
      refine ⟨?_, List.sorted_cons.mpr h⟩
      intro x hx
      rcases List.mem_cons.mp hx with rfl | hx
      · exact hab
      · exact le_trans hab (h.1 x hx)
    · rename_i hab
      rw [List.sorted_cons]
      refine ⟨?_, ih h.2⟩
      intro x hx
      rcases List.mem_cons.mp ((perm_insertSorted a r).mem_iff.mp hx) with rfl | hx2
      · omega
      · exact h.1 x hx2

theorem sorted_sortNat (l : List Nat) : (sortNat l).Sorted (· ≤ ·) := by
  induction l with
  | nil => simp [sortNat]
  | cons a r ih => exact sorted_insertSorted a (sortNat r) ih

theorem sorted_lt_sortNat (l : List Nat) (h : l.Nodup) :
    (sortNat l).Sorted (· < ·) := by
  have hs := sorted_sortNat l
  have hn : (sortNat l).Nodup := (perm_sortNat l).nodup_iff.mpr h
  exact (List.Pairwise.and hs hn).imp (fun hab => lt_of_le_of_ne hab.1 hab.2)

/-! The analyzer only ever adds lines to the shared set: every mutation is a
`Set.add`.  `AddOnly s t` records that `t` extends `s` and keeps it free of
duplicates. -/

/-- The result set grows by `Set.add` steps only. -/
def AddOnly (s t : List Nat) : Prop := s ⊆ t ∧ (s.Nodup → t.Nodup)

theorem addOnly_rfl (s : List Nat) : AddOnly s s := ⟨fun _ h => h, id⟩

theorem AddOnly.trans {s t u : List Nat} (h1 : AddOnly s t)
    (h2 : AddOnly t u) : AddOnly s u :=
  ⟨h1.1.trans h2.1, fun h => h2.2 (h1.2 h)⟩

theorem addOnly_addLine (s : List Nat) (n : Nat) : AddOnly s (addLine s n) := by
  rw [addLine]
  split
  · exact addOnly_rfl s
  · rename_i hn
    refine ⟨List.subset_append_left s [n], fun hd => ?_⟩
    rw [List.nodup_append]
    refine ⟨hd, List.nodup_singleton n, ?_⟩
    intro a ha hb
    rw [List.mem_singleton] at hb
    subst hb
    exact hn ha

theorem mem_addLine_self (s : List Nat) (n : Nat) : n ∈ addLine s n := by
  rw [addLine]
  split
  · assumption
  · exact List.mem_append_right s (List.mem_singleton_self n)

theorem mem_addLine_of_mem {s : List Nat} {a : Nat} (n : Nat) (h : a ∈ s) :
    a ∈ addLine s n :=
  (addOnly_addLine s n).1 h

theorem addOnly_foldl {α : Type} (f : List Nat → α → List Nat)
    (hf : ∀ u x, AddOnly u (f u x)) (l : List α) (s : List Nat) :
    AddOnly s (l.foldl f s) := by
  induction l generalizing s with
  | nil => exact addOnly_rfl s
  | cons x xs ih => exact (hf s x).trans (ih _)

theorem addOnly_foldl_pair {α β : Type} (g : List Nat × β → α → List Nat × β)
    (hg : ∀ st x, AddOnly st.1 (g st x).1) (l : List α) (st : List Nat × β) :
    AddOnly st.1 (l.foldl g st).1 := by
  induction l generalizing st with
  | nil => exact addOnly_rfl _
  | cons x xs ih => exact (hg st x).trans (ih _)

theorem addOnly_foldl_pair_mk {α β : Type} (g : List Nat × β → α → List Nat × β)
    (hg : ∀ st x, AddOnly st.1 (g st x).1) (l : List α) (a : List Nat) (b : β) :
    AddOnly a (l.foldl g (a, b)).1 :=
  addOnly_foldl_pair g hg l (a, b)

theorem addOnly_addAll (l : List Nat) (s : List Nat) : AddOnly s (addAll l s) :=
  addOnly_foldl _ (fun u b => addOnly_addLine u b) l s

theorem addOnly_addLinesWhere (p : Nat → String → Bool)
    (items : List (Nat × String)) (s : List Nat) :
    AddOnly s (addLinesWhere p items s) := by
  refine addOnly_foldl _ (fun u it => ?_) items s
  split
  · exact addOnly_addLine u it.1
  · exact addOnly_rfl u

theorem addLinesWhere_cons (p : Nat → String → Bool) (it : Nat × String)
    (rest : List (Nat × String)) (s : List Nat) :
    addLinesWhere p (it :: rest) s =
      addLinesWhere p rest (if p it.1 it.2 then addLine s it.1 else s) := rfl

theorem mem_addLinesWhere_hit {p : Nat → String → Bool}
    {items : List (Nat × String)} {s : List Nat} {i : Nat} {line : String}
    (hmem : (i, line) ∈ items) (hp : p i line = true) :
    i ∈ addLinesWhere p items s := by
  induction items generalizing s with
  | nil => cases hmem
  | cons it rest ih =>
    rw [addLinesWhere_cons]
    rcases List.mem_cons.mp hmem with h | h
    · cases h
      rw [if_pos hp]
      exact (addOnly_addLinesWhere _ _ _).1 (mem_addLine_self s i)
    · exact ih h

theorem addOnly_condWalk (items : List (Nat × String)) (s : List Nat) :
    AddOnly s (condWalk items s) := by
  induction items generalizing s with
  | nil => exact addOnly_rfl s
  | cons it rest ih =>
    obtain ⟨i, line⟩ := it
    rw [condWalk]
    split
    · exact (addOnly_addLine s i).trans (ih _)
    · split
      · exact addOnly_rfl s
      · exact ih s

theorem addOnly_scanFunctionDefs (doc : Doc) (targetLine : Nat) (name : String)
    (s : List Nat) : AddOnly s (scanFunctionDefs doc targetLine name s) := by
  unfold scanFunctionDefs
  refine addOnly_foldl_pair_mk _ (fun st it => ?_) _ _ _
  simp only []
  split
  · exact addOnly_rfl _
  · split
    · exact addOnly_addLine _ _
    · exact addOnly_rfl _

theorem addOnly_findVariableRelationships (doc : Doc) (targetLine : Nat)
    (txt : String) (s : List Nat) :
    AddOnly s (findVariableRelationships doc targetLine txt s) := by
  unfold findVariableRelationships
  exact addOnly_addLinesWhere _ _ _

theorem addOnly_findFunctionRelationships (doc : Doc) (targetLine : Nat)
    (txt : String) (s : List Nat) :
    AddOnly s (findFunctionRelationships doc targetLine txt s) := by
  refine addOnly_foldl _ (fun u name => ?_) _ _
  split
  · exact addOnly_rfl u
  · exact addOnly_scanFunctionDefs _ _ _ _

theorem addOnly_findLoopRelationships (doc : Doc) (loopLine : Nat)
    (s : List Nat) : AddOnly s (findLoopRelationships doc loopLine s) := by
  rw [findLoopRelationships]
  unfold_let
  split
  · exact (addOnly_addAll _ _).trans (addOnly_addLinesWhere _ _ _)
  · exact addOnly_addAll _ _

theorem addOnly_findConditionalRelationships (doc : Doc) (condLine : Nat)
    (s : List Nat) : AddOnly s (findConditionalRelationships doc condLine s) := by
  unfold findConditionalRelationships
  exact ((addOnly_addLine _ _).trans (addOnly_condWalk _ _)).trans (addOnly_addAll _ _)

theorem addOnly_findTryCatchRelationships (doc : Doc) (tryLine : Nat)
    (s : List Nat) : AddOnly s (findTryCatchRelationships doc tryLine s) := by
  rw [findTryCatchRelationships]
  unfold_let
  split
  · exact (addOnly_addLine _ _).trans (addOnly_addLinesWhere _ _ _)
  · exact addOnly_addLine _ _

theorem addOnly_findSwitchRelationships (doc : Doc) (switchLine : Nat)
    (s : List Nat) : AddOnly s (findSwitchRelationships doc switchLine s) := by
  induction switchLine using Nat.strong_induction_on generalizing s with
  | _ n ih =>
    rw [findSwitchRelationships]
    unfold_let
    split
    · split
      · exact addOnly_addLinesWhere _ _ _
      · exact addOnly_rfl s
    · split
      · split
        · rename_i i h
          exact ih i (findPrevMatching_lt h) s
        · exact addOnly_rfl s
      · exact addOnly_rfl s

theorem addOnly_findRelatedLoopStructure (doc : Doc) (breakLine : Nat)
    (s : List Nat) : AddOnly s (findRelatedLoopStructure doc breakLine s) := by
  rw [findRelatedLoopStructure]
  split
  · exact (addOnly_addLine _ _).trans (addOnly_findLoopRelationships _ _ _)
  · exact addOnly_rfl s

theorem addOnly_findRelatedFunctionStructure (doc : Doc) (returnLine : Nat)
    (s : List Nat) : AddOnly s (findRelatedFunctionStructure doc returnLine s) := by
  rw [findRelatedFunctionStructure]
  split
  · exact addOnly_rfl s
  · split
    · exact addOnly_addLine _ _
    · exact addOnly_rfl s

theorem addOnly_enhancedControlFlowAnalysis (doc : Doc) (targetLine : Nat)
    (s : List Nat) : AddOnly s (enhancedControlFlowAnalysis doc targetLine s) := by
  rw [enhancedControlFlowAnalysis]
  unfold_let
  have hdispatch : AddOnly s
      (if isLoopStructure (trimStr (lineD doc targetLine)) then
        findLoopRelationships doc targetLine s
      else if isConditionalStructure (trimStr (lineD doc targetLine)) then
        findConditionalRelationships doc targetLine s
      else if isTryCatchStructure (trimStr (lineD doc targetLine)) then
        findTryCatchRelationships doc targetLine s
      else if isSwitchStructure (trimStr (lineD doc targetLine)) then
        findSwitchRelationships doc targetLine s
      else s) := by
    split
    · exact addOnly_findLoopRelationships _ _ _
    · split
      · exact addOnly_findConditionalRelationships _ _ _
      · split
        · exact addOnly_findTryCatchRelationships _ _ _
        · split
          · exact addOnly_findSwitchRelationships _ _ _
          · exact addOnly_rfl s
  refine hdispatch.trans ?_
  have hbreak : ∀ u : List Nat, AddOnly u
      (if isBreakOrContinue (trimStr (lineD doc targetLine)) then
        findRelatedLoopStructure doc targetLine u
      else u) := by
    intro u
    split
    · exact addOnly_findRelatedLoopStructure _ _ _
    · exact addOnly_rfl u
  refine (hbreak _).trans ?_
  have hret : ∀ u : List Nat, AddOnly u
      (if isReturnStatement (trimStr (lineD doc targetLine)) then
        findRelatedFunctionStructure doc targetLine u
      else u) := by
    intro u
    split
    · exact addOnly_findRelatedFunctionStructure _ _ _
    · exact addOnly_rfl u
  exact hret _

theorem addOnly_addIfFound (o : Option Nat) (s : List Nat) :
    AddOnly s (addIfFound o s) := by
  cases o
  · exact addOnly_rfl s
  · exact addOnly_addLine _ _

theorem addOnly_findImportForIdentifier (identifier : String)
    (importGroups : ImportGroups) (s : List Nat) :
    AddOnly s (findImportForIdentifier identifier importGroups s) := by
  rw [findImportForIdentifier]
  unfold_let
  exact ((addOnly_addIfFound _ _).trans
    ((addOnly_addIfFound _ _).trans (addOnly_addIfFound _ _))).trans
    (addOnly_addIfFound _ _)

theorem addOnly_findReExports (doc : Doc) (identifiers : List String)
    (s : List Nat) : AddOnly s (findReExports doc identifiers s) := by
  unfold findReExports
  exact addOnly_addLinesWhere _ _ _

theorem addOnly_enhancedImportAnalysis (doc : Doc) (txt : String)
    (s : List Nat) : AddOnly s (enhancedImportAnalysis doc txt s) := by
  rw [enhancedImportAnalysis]
  refine AddOnly.trans ?_ (addOnly_findReExports _ _ _)
  exact addOnly_foldl _
    (fun u ident => addOnly_findImportForIdentifier ident _ u) _ _

theorem addOnly_findClassMemberRelationships (doc : Doc) (targetLine : Nat)
    (txt : String) (s : List Nat) :
    AddOnly s (findClassMemberRelationships doc targetLine txt s) := by
  rw [findClassMemberRelationships]
  split
  · exact addOnly_rfl s
  · unfold_let
    split
    · exact addOnly_rfl s
    · split
      · exact ((addOnly_addLinesWhere _ _ _).trans (addOnly_addLine _ _)).trans
          (addOnly_addLine _ _)
      · exact (addOnly_addLinesWhere _ _ _).trans (addOnly_addLine _ _)

theorem runFinders_addOnly (steps : List FinderStep)
    (h : ∀ f ∈ steps, ∀ u, AddOnly u (f u).1) (s : List Nat) :
    AddOnly s (runFinders steps s) := by
  induction steps generalizing s with
  | nil => exact addOnly_rfl s
  | cons f rest ih =>
    have hf : AddOnly s (f s).1 := h f (List.mem_cons_self f rest) s
    rw [runFinders]
    rcases hfs : f s with ⟨s1, o⟩
    have hs1 : AddOnly s s1 := by rw [hfs] at hf; exact hf
    cases o with
    | none => exact hs1.trans (ih (fun g hg => h g (List.mem_cons_of_mem f hg)) s1)
    | some e => exact hs1

theorem mkSteps_addOnly (doc : Doc) (targetLine : Nat) (txt : String) :
    ∀ f ∈ mkSteps doc targetLine txt, ∀ u, AddOnly u (f u).1 := by
  intro f hf u
  simp only [mkSteps, List.mem_cons, List.not_mem_nil, or_false] at hf
  rcases hf with h | h | h | h | h <;> subst h
  · exact addOnly_findVariableRelationships _ _ _ _
  · exact addOnly_findFunctionRelationships _ _ _ _
  · exact addOnly_enhancedControlFlowAnalysis _ _ _
  · exact addOnly_enhancedImportAnalysis _ _ _
  · exact addOnly_findClassMemberRelationships _ _ _ _

/-! Composition facts. -/

theorem lineAt_ok (doc : Doc) (i : Int) (h0 : 0 ≤ i)
    (h1 : i < (doc.lines.length : Int)) :
    lineAt doc i = .ok (doc.lines.getD i.toNat "") := by
  rw [lineAt, if_pos ⟨h0, h1⟩]

theorem findRelatedLinesWith_ok (steps : Doc → Nat → String → List FinderStep)
    (doc : Doc) (targetLine : Int) (h0 : 0 ≤ targetLine)
    (h1 : targetLine < (doc.lines.length : Int)) :
    findRelatedLinesWith steps doc targetLine =
      .ok (sortNat (runFinders
        (steps doc targetLine.toNat (doc.lines.getD targetLine.toNat ""))
        [targetLine.toNat])) := by
  rw [findRelatedLinesWith, lineAt_ok doc targetLine h0 h1]
  rfl

theorem runFinders_append_throwing (pre : List FinderStep) (f : FinderStep)
    (post : List FinderStep) (s : List Nat)
    (hpre : ∀ g ∈ pre, ∀ u, (g u).2 = none)
    (hf : ∀ u, ((f u).2).isSome) :
    runFinders (pre ++ f :: post) s = (f (runFinders pre s)).1 := by
  induction pre generalizing s with
  | nil =>
    have hs := hf s
    rcases hfs : f s with ⟨s1, o⟩
    rw [hfs] at hs
    cases o with
    | none => simp at hs
    | some e => simp [runFinders, hfs]
  | cons g pre ih =>
    have hg := hpre g (List.mem_cons_self g pre) s
    rcases hgs : g s with ⟨s1, o⟩
    rw [hgs] at hg
    subst hg
    have hrun : runFinders ((g :: pre) ++ f :: post) s =
        runFinders (pre ++ f :: post) s1 := by
      simp [runFinders, hgs]
    have hrun2 : runFinders (g :: pre) s = runFinders pre s1 := by
      simp [runFinders, hgs]
    rw [hrun, hrun2]
    exact ih s1 (fun g2 hg2 => hpre g2 (List.mem_cons_of_mem g hg2))

theorem braceScanFrom_bounds (lines : List String) (k : Nat) (d : Int)
    (f : Bool) (i : Nat) (h : braceScanFrom lines k d f = some i) :
    k ≤ i ∧ i < k + lines.length := by
  induction lines generalizing k d f with
  | nil => simp [braceScanFrom] at h
  | cons line rest ih =>
    rw [braceScanFrom] at h
    split at h
    · rename_i d1 f1 heq
      obtain ⟨h1, h2⟩ := ih (k + 1) d1 f1 h
      refine ⟨by omega, ?_⟩
      simp only [List.length_cons]
      omega
    · injection h with h
      subst h
      refine ⟨le_refl _, ?_⟩
      simp only [List.length_cons]
      omega

theorem findControlStructureBoundaries_eq (doc : Doc) (controlLine : Nat)
    (h : controlLine < doc.lines.length) :
    findControlStructureBoundaries doc controlLine =
      .ok (match braceScanFrom (doc.lines.drop controlLine) controlLine 0 false with
        | some i => [controlLine, i]
        | none => [controlLine]) := by
  rw [findControlStructureBoundaries,
    lineAt_ok doc controlLine (by exact_mod_cast Nat.zero_le controlLine)
      (by exact_mod_cast h)]
  rfl

theorem mem_idxFrom {α : Type} (l : List α) (d : α) (k j : Nat)
    (h : j < l.length) : (k + j, l.getD j d) ∈ idxFrom k l := by
  induction l generalizing k j with
  | nil => simp at h
  | cons x xs ih =>
    cases j with
    | zero => simp [idxFrom]
    | succ j =>
      have hlt : j < xs.length := by
        simp only [List.length_cons] at h
        omega
      have hkj : k + (j + 1) = (k + 1) + j := by omega
      rw [hkj, idxFrom]
      exact List.mem_cons_of_mem _ (by simpa using ih (k + 1) j hlt)

theorem mem_docLines (doc : Doc) (i : Nat) (h : i < doc.lines.length) :
    (i, lineD doc i) ∈ docLines doc := by
  have := mem_idxFrom doc.lines "" 0 i h
  simpa [docLines, lineD] using this

/-! Concrete fixtures used by the claim theorems. -/

/-- Synthetic finder that throws immediately, contributing nothing. -/
def throwingStep : FinderStep := fun s => (s, some "synthetic finder failure")

/-- Synthetic finder that adds line 7 and succeeds. -/
def addSevenStep : FinderStep := fun s => (addLine s 7, none)

/-- Synthetic finder that does nothing and succeeds. -/
def idStep : FinderStep := fun s => (s, none)

/-- Synthetic finder that adds line 3 and succeeds. -/
def addThreeStep : FinderStep := fun s => (addLine s 3, none)

/-- Synthetic finder that adds line 9 and succeeds. -/
def addNineStep : FinderStep := fun s => (addLine s 9, none)

/-- One-line document for the synthetic-failure scenarios. -/
def oneLineDoc : Doc := ⟨["target"], "javascript"⟩

/-- Unclosed `if` block: the brace depth never returns to zero. -/
def braceDoc : Doc := ⟨["if (x) \x7b", "x++;"], "javascript"⟩

/-- The spec's 3-line scenario-1 document. -/
def varDemoDoc : Doc :=
  ⟨["const x = 5;", "let y = 10;", "console.log(x + y);"], "javascript"⟩

/-- The spec's scenario-5 document: a try block spanning lines 3-8 with the
`catch` header on line 6; line 4 is a plain statement inside the try. -/
def tryDemoDoc : Doc :=
  ⟨["", "", "", "try \x7b", "work();", "more();", "\x7d catch (e) \x7b",
    "handle(e);", "\x7d"], "javascript"⟩

/-- An interface whose member line is analyzed. -/
def ifaceDoc : Doc :=
  ⟨["interface Foo \x7b", "  bar: number;", "\x7d"], "typescript"⟩

/-- A class with a constructor and a method touching `this.x`. -/
def classDemoDoc : Doc :=
  ⟨["class Foo \x7b", "  constructor() \x7b", "  \x7d", "  bar() \x7b",
    "    this.x = 1;", "  \x7d", "\x7d"], "typescript"⟩

/-- A document whose only re-export line sits at index 100, past the
100-line window of `categorizeImports`. -/
def reExportDoc : Doc :=
  ⟨List.replicate 100 "" ++ ["export \x7b Foo \x7d from \"./m\";"], "typescript"⟩

/-- Empty document (any `lineAt` read throws). -/
def emptyDoc : Doc := ⟨[], "javascript"⟩

/-! Claim C1. -/

/-- C1 (corrected): when one finder throws, `findRelatedLines` catches and
returns normally, but the result is the target line plus what the finders
*before* the throwing one produced (and the thrower's partial additions) —
finders after the throwing one are skipped, so their contributions are
lost, contrary to the claim that nothing from the other four is lost. -/
theorem findRelatedLinesWith_failOpen (pre : List FinderStep) (f : FinderStep)
    (post : List FinderStep) (doc : Doc) (targetLine : Int)
    (h0 : 0 ≤ targetLine) (h1 : targetLine < (doc.lines.length : Int))
    (hpre : ∀ g ∈ pre, ∀ u, (g u).2 = none)
    (hf : ∀ u, ((f u).2).isSome) :
    findRelatedLinesWith (fun _ _ _ => pre ++ f :: post) doc targetLine =
      .ok (sortNat ((f (runFinders pre [targetLine.toNat])).1)) := by
  rw [findRelatedLinesWith_ok (fun _ _ _ => pre ++ f :: post) doc targetLine h0 h1,
    runFinders_append_throwing pre f post _ hpre hf]

/-- C1 witness: first finder adds line 3, second throws, third would add
line 9; the call returns normally with `[0, 3]` — line 9 is lost. -/
theorem findRelatedLinesWith_failOpen_witness :
    findRelatedLinesWith (fun _ _ _ => [addThreeStep] ++ throwingStep :: [addNineStep])
      oneLineDoc 0 = .ok [0, 3] :=
  (findRelatedLinesWith_failOpen [addThreeStep] throwingStep [addNineStep]
    oneLineDoc 0 (by decide) (by decide)
    (by intro g hg u; rw [List.mem_singleton] at hg; subst hg; rfl)
    (fun u => rfl)).trans (by rfl)

/-- C1 counterexample: the first of the five finders throws (adding
nothing) and the second — which does not throw — produces line 7, yet the
result is `[0]`: the non-throwing finder's contribution is lost, refuting
"the returned set equals the target line unioned with everything the other
four finders produced". -/
theorem findRelatedLinesWith_failOpen_cex :
    (throwingStep [0]).2 = some "synthetic finder failure" ∧
    (addSevenStep [0]).1 = [0, 7] ∧
    findRelatedLinesWith
      (fun _ _ _ => [throwingStep, addSevenStep, idStep, idStep, idStep])
      oneLineDoc 0 = .ok [0] ∧
    (7 : Nat) ∉ ([0] : List Nat) :=
  ⟨rfl, by decide, by rfl, by decide⟩

/-! Claim C2. -/

/-- C2 (corrected): for a valid start line `findControlStructureBoundaries`
never throws, the first boundary is the start line, every boundary lies
within `[startLine, lineCount)` (so a close line is never below the open
line), and at most two boundaries are returned — but when the scan exhausts
the document with the depth still positive, the result is just
`[startLine]`: no close line equal to the last line index is produced (that
fallback exists only in `findClassBoundaries`). -/
theorem findControlStructureBoundaries_valid (doc : Doc) (controlLine : Nat)
    (h : controlLine < doc.lines.length) :
    ∃ boundaries, findControlStructureBoundaries doc controlLine = .ok boundaries ∧
      boundaries.head? = some controlLine ∧
      (∀ b ∈ boundaries, controlLine ≤ b ∧ b < doc.lines.length) ∧
      boundaries.length ≤ 2 := by
  rw [findControlStructureBoundaries_eq doc controlLine h]
  cases hscan : braceScanFrom (doc.lines.drop controlLine) controlLine 0 false with
  | none =>
    refine ⟨[controlLine], rfl, rfl, ?_, by simp⟩
    intro b hb
    rw [List.mem_singleton] at hb
    subst hb
    exact ⟨le_refl _, h⟩
  | some i =>
    obtain ⟨h1, h2⟩ := braceScanFrom_bounds _ _ _ _ _ hscan
    rw [List.length_drop] at h2
    refine ⟨[controlLine, i], rfl, rfl, ?_, by simp⟩
    intro b hb
    rcases List.mem_cons.mp hb with hb | hb
    · subst hb
      exact ⟨le_refl _, h⟩
    · rw [List.mem_singleton] at hb
      subst hb
      exact ⟨h1, by omega⟩

/-- C2 witness: the unclosed block at line 0 of a 2-line document satisfies
the amended contract. -/
theorem findControlStructureBoundaries_valid_witness :
    ∃ boundaries, findControlStructureBoundaries braceDoc 0 = .ok boundaries ∧
      boundaries.head? = some 0 ∧
      (∀ b ∈ boundaries, 0 ≤ b ∧ b < braceDoc.lines.length) ∧
      boundaries.length ≤ 2 :=
  findControlStructureBoundaries_valid braceDoc 0 (by decide)

/-- C2 counterexample: scanning `["if (x) \x7b", "x++;"]` from line 0
exhausts the document with depth 1, and the returned boundary list is
`[0]` — it does not contain the last line index 1, refuting "the returned
closeLine equals the document's last line index". -/
theorem findControlStructureBoundaries_cex :
    findControlStructureBoundaries braceDoc 0 = .ok [0] ∧
    (1 : Nat) ∉ ([0] : List Nat) :=
  ⟨by rfl, by decide⟩

/-! Claim C3. -/

/-- C3 (confirmed): for every document and valid target line, the array
returned by `findRelatedLines` contains the target line — the set is seeded
with it and every finder only adds lines. -/
theorem findRelatedLines_contains_target (doc : Doc) (targetLine : Int)
    (h0 : 0 ≤ targetLine) (h1 : targetLine < (doc.lines.length : Int)) :
    ∃ result, findRelatedLines doc targetLine = .ok result ∧
      targetLine.toNat ∈ result := by
  refine ⟨_, findRelatedLinesWith_ok mkSteps doc targetLine h0 h1, ?_⟩
  rw [mem_sortNat]
  exact (runFinders_addOnly _ (mkSteps_addOnly doc _ _) _).1
    (List.mem_singleton_self _)

/-- C3 witness at the 3-line demo document, target line 0. -/
theorem findRelatedLines_contains_target_witness :
    ∃ result, findRelatedLines varDemoDoc 0 = .ok result ∧
      (0 : Int).toNat ∈ result :=
  findRelatedLines_contains_target varDemoDoc 0 (by decide) (by decide)

/-! Claim C4. -/

/-- C4 (confirmed): any exception from `analyzeCodeSelection`'s body
(including `CodeContext` construction) is re-thrown as a single
`AnalysisError` whose message contains the original error's message and
whose line number is the selection's start line; no `ok` result escapes
that path. -/
theorem analyzeCodeSelection_wraps_errors (doc : Doc) (selection : Selection)
    (e : String) (h : analyzeBody doc selection = .error e) :
    analyzeCodeSelection doc selection =
      .error ⟨"Failed to analyze code selection: " ++ e, selection.startLine⟩ ∧
    ∃ u v, "Failed to analyze code selection: " ++ e = u ++ (e ++ v) := by
  constructor
  · rw [analyzeCodeSelection, h]
  · exact ⟨"Failed to analyze code selection: ", "", by rw [String.append_empty]⟩

/-- C4 witness: on the empty document the body throws the accessor's
"Illegal value for line 0", and the wrapped `AnalysisError` carries it with
line number 0. -/
theorem analyzeCodeSelection_wraps_errors_witness :
    analyzeCodeSelection emptyDoc ⟨0⟩ =
      .error ⟨"Failed to analyze code selection: " ++ "Illegal value for line 0", (0 : Int)⟩ ∧
    ∃ u v, "Failed to analyze code selection: " ++ "Illegal value for line 0" =
      u ++ ("Illegal value for line 0" ++ v) :=
  analyzeCodeSelection_wraps_errors emptyDoc ⟨0⟩ "Illegal value for line 0" (by rfl)

/-! Claim C5. -/

/-- C5 (code bug): on the spec's 3-line scenario document with target
line 2 (`console.log(x + y);`) the code returns exactly `[2]` — the bare
operands `x` and `y` match none of the five extraction shapes, so the two
declaration lines are not pulled in, although the repository's own unit
test ("should find variable relationships correctly") asserts they are. -/
theorem findRelatedLines_varDemo : findRelatedLines varDemoDoc 2 = .ok [2] := by
  rfl

/-! Claim C6. -/

/-- C6 (corrected): with the try block on lines 3-8 and the catch header at
line 6, analyzing the plain statement at line 4 yields exactly `[4]`:
`enhancedControlFlowAnalysis` dispatches only on the target line's own
shape, and a plain statement inside a try block matches no category, so the
associated catch line is not found. -/
theorem findRelatedLines_try_inside : findRelatedLines tryDemoDoc 4 = .ok [4] := by
  rfl

/-- C6 counterexample: the result for target line 4 is `[4]`, which does
not contain the catch line 6, refuting the claimed inclusion. -/
theorem findRelatedLines_try_cex :
    findRelatedLines tryDemoDoc 4 = .ok [4] ∧ (6 : Nat) ∉ ([4] : List Nat) :=
  ⟨by rfl, by decide⟩

/-! Claim C7. -/

/-- C7 (corrected): when the backward scan resolves a class name *and*
`findClassBoundaries` locates a `class NAME` declaration line (recording
non-negative boundaries), `findClassMemberRelationships` always adds that
opening declaration line, and adds the constructor line whenever
`findConstructor` resolves one — names resolved from `interface`/`type`
headers have no `class NAME` line, so the finder returns without adding
anything for them. -/
theorem findClassMemberRelationships_adds_header (doc : Doc) (targetLine : Nat)
    (targetLineText : String) (s : List Nat) (className : String)
    (startL stopL : Nat)
    (hclass : findContainingClass doc targetLine = some className)
    (hbounds : findClassBoundaries doc className = ⟨(startL : Int), (stopL : Int)⟩) :
    startL ∈ findClassMemberRelationships doc targetLine targetLineText s ∧
    ∀ c : Nat, findConstructor doc ⟨(startL : Int), (stopL : Int)⟩ = (c : Int) →
      c ∈ findClassMemberRelationships doc targetLine targetLineText s := by
  have hg1 : (((startL : Int) == -1) || ((stopL : Int) == -1)) = false := by
    rw [Bool.or_eq_false_iff, beq_eq_false_iff_ne, beq_eq_false_iff_ne]
    omega
  unfold findClassMemberRelationships
  rw [hclass]
  dsimp only
  rw [hbounds]
  dsimp only
  rw [hg1]
  simp only [Bool.false_eq_true, if_false, Int.toNat_natCast]
  constructor
  · split
    · exact mem_addLine_of_mem _ (mem_addLine_self _ _)
    · exact mem_addLine_self _ _
  · intro c hc
    rw [hc]
    have hcond : ((c : Int) != -1) = true := by
      rw [bne_iff_ne]
      omega
    rw [hcond]
    simp only [if_true, Int.toNat_natCast]
    exact mem_addLine_self _ _

/-- C7 witness: in the class demo document the member line 4 resolves class
`Foo` with boundaries (0, 6) and constructor line 1; both the declaration
line 0 and the constructor line 1 are added. -/
theorem findClassMemberRelationships_adds_header_witness :
    (0 : Nat) ∈ findClassMemberRelationships classDemoDoc 4 "    this.x = 1;" [4] ∧
    (1 : Nat) ∈ findClassMemberRelationships classDemoDoc 4 "    this.x = 1;" [4] := by
  have h := findClassMemberRelationships_adds_header classDemoDoc 4
    "    this.x = 1;" [4] "Foo" 0 6 (by rfl) (by rfl)
  exact ⟨h.1, h.2 1 (by rfl)⟩

/-- C7 counterexample: line 1 of the interface document resolves class name
`Foo` from the `interface Foo` header, yet `findClassMemberRelationships`
adds nothing — in particular not the opening declaration line 0 — because
no `class Foo` line exists for `findClassBoundaries`. -/
theorem findClassMemberRelationships_iface_cex :
    findContainingClass ifaceDoc 1 = some "Foo" ∧
    findClassMemberRelationships ifaceDoc 1 "  bar: number;" [1] = [1] ∧
    (0 : Nat) ∉ ([1] : List Nat) :=
  ⟨by rfl, by rfl, by decide⟩

/-! Claim C8. -/

/-- C8 (confirmed): for every document and valid target line the array
returned by `findRelatedLines` is strictly increasing (hence
non-decreasing): the set is seeded duplicate-free, every mutation is a
`Set.add`, and the result is sorted ascending. -/
theorem findRelatedLines_sorted (doc : Doc) (targetLine : Int)
    (h0 : 0 ≤ targetLine) (h1 : targetLine < (doc.lines.length : Int)) :
    ∃ result, findRelatedLines doc targetLine = .ok result ∧
      List.Sorted (· < ·) result := by
  refine ⟨_, findRelatedLinesWith_ok mkSteps doc targetLine h0 h1, ?_⟩
  refine sorted_lt_sortNat _ ?_
  exact (runFinders_addOnly _ (mkSteps_addOnly doc _ _) _).2
    (List.nodup_singleton _)

/-- C8 witness at the try demo document, target line 3. -/
theorem findRelatedLines_sorted_witness :
    ∃ result, findRelatedLines tryDemoDoc 3 = .ok result ∧
      List.Sorted (· < ·) result :=
  findRelatedLines_sorted tryDemoDoc 3 (by decide) (by decide)

/-! Claim C9. -/

/-- C9 (confirmed): the import finder scans the whole document — any line
at any index (including beyond the 100-line import window) that passes the
re-export test and contains some extracted identifier of the target line as
a plain substring is added to the set. -/
theorem enhancedImportAnalysis_adds_reexports (doc : Doc)
    (targetLineText : String) (s : List Nat) (i : Nat)
    (hi : i < doc.lines.length)
    (hre : reExportTest (lineD doc i) = true)
    (hid : ∃ ident ∈ extractAllIdentifiers targetLineText,
      containsStr (lineD doc i) ident = true) :
    i ∈ enhancedImportAnalysis doc targetLineText s := by
  unfold enhancedImportAnalysis findReExports
  refine mem_addLinesWhere_hit (mem_docLines doc i hi) ?_
  dsimp only
  rw [hre, Bool.true_and, List.any_eq_true]
  obtain ⟨ident, hid1, hid2⟩ := hid
  exact ⟨ident, hid1, hid2⟩

/-- C9 witness: the re-export of `Foo` at line index 100 — past the
100-line import window — is added for the target text `new Foo();`. -/
theorem enhancedImportAnalysis_adds_reexports_witness :
    (100 : Nat) ∈ enhancedImportAnalysis reExportDoc "new Foo();" [5] :=
  enhancedImportAnalysis_adds_reexports reExportDoc "new Foo();" [5] 100
    (by decide) (by decide) ⟨"Foo", by decide, by decide⟩

/-! Claim C10. -/

/-- C10 (confirmed): for an out-of-range target line (negative or at least
`lineCount`), `findRelatedLines` propagates the document accessor's
exception unchanged — the initial read of the target line's text happens
before the fail-open try block. -/
theorem findRelatedLines_out_of_range (doc : Doc) (targetLine : Int)
    (h : targetLine < 0 ∨ (doc.lines.length : Int) ≤ targetLine) :
    ∃ e, lineAt doc targetLine = .error e ∧
      findRelatedLines doc targetLine = .error e := by
  have hcond : ¬(0 ≤ targetLine ∧ targetLine < (doc.lines.length : Int)) := by
    rcases h with h | h <;> omega
  refine ⟨"Illegal value for line " ++ toString targetLine, ?_, ?_⟩
  · rw [lineAt, if_neg hcond]
  · rw [findRelatedLines, findRelatedLinesWith, lineAt, if_neg hcond]
    rfl

/-- C10 witness: on the 3-line demo document, both target 5 and target -1
reproduce the accessor's error. -/
theorem findRelatedLines_out_of_range_witness :
    (∃ e, lineAt varDemoDoc 5 = .error e ∧
      findRelatedLines varDemoDoc 5 = .error e) ∧
    (∃ e, lineAt varDemoDoc (-1) = .error e ∧
      findRelatedLines varDemoDoc (-1) = .error e) :=
  ⟨findRelatedLines_out_of_range varDemoDoc 5 (Or.inr (by decide)),
   findRelatedLines_out_of_range varDemoDoc (-1) (Or.inl (by decide))⟩

end CodeAnalysis
